import Mathlib

/-!
Verification of the Astrohab layout editor's state-management logic
(`SRC/App.jsx`), shallowly embedded in Lean 4.

The application state consists of the module registry (a JS array of
plain records), the selection (a nullable module id), the local-storage
slot under the key "astrohab_layout", and the stream of `alert` messages
shown to the user.  All numbers are modelled as exact rationals (the
arithmetic the app performs on them — defaults, the estimator products —
is exact at every value the claims mention).  `Date.now()` and
`Math.random()` are environment inputs and appear as explicit parameters
of `addModule`.
-/

namespace Astrohab

/-- JSON values, the result type of `JSON.parse` (numbers as rationals). -/
inductive JVal where
  | null : JVal
  | bool (b : Bool) : JVal
  | num (q : ℚ) : JVal
  | str (s : String) : JVal
  | arr (elems : List JVal) : JVal
  | obj (fields : List (String × JVal)) : JVal
deriving Repr

/-- A module record, as built by `addModule` in `App.jsx`:
`{ id, label, color, size, type, position }` with `position` a
three-component coordinate `[x, y, z]`. -/
structure Module where
  id : ℚ
  label : String
  color : String
  size : ℚ
  type : String
  position : ℚ × ℚ × ℚ
deriving DecidableEq, Repr

/-- The application state held at the root of `App`:
`modules` (the registry), `selected` (nullable id), the local-storage
slot for the key "astrohab_layout" (holding the decoded form of the
stored JSON text, `none` when the key is absent), and the list of
`alert` messages emitted so far, in order. -/
structure AppState where
  modules : List Module
  selected : Option ℚ
  storage : Option JVal
  alerts : List String

/-- The initial state: `useState([])`, `useState(null)`, empty storage,
no alerts. -/
def initState : AppState :=
  { modules := [], selected := none, storage := none, alerts := [] }

/-- The fixed type enumeration of `addModule`:
`["cube", "sphere", "cylinder", "cone", "solar", "tunnel"]`. -/
def types : List String :=
  ["cube", "sphere", "cylinder", "cone", "solar", "tunnel"]

/-- The per-type default colors of `addModule` (`colors[type]`). -/
def colorOf : String → String
  | "cube" => "#00aaff"
  | "sphere" => "#ffcc00"
  | "cylinder" => "#00ffaa"
  | "cone" => "#ff4444"
  | "solar" => "#2233ff"
  | "tunnel" => "#aaaaaa"
  | _ => ""

/-- `type.charAt(0).toUpperCase() + type.slice(1)`. -/
def capitalizeStr (s : String) : String :=
  match s.data with
  | [] => ""
  | c :: cs => String.mk (c.toUpper :: cs)

/-- The record built by `addModule` (`const newModule = {...}`).  The
environment inputs are explicit: `t` is the value of `Date.now()`, `r`
the index `Math.floor(Math.random() * types.length)` (always in `0..5`
since `Math.random() ∈ [0,1)`), and `p1`, `p2` the two `Math.random()`
draws used for the position `[p1*6-3, 0, p2*6-3]`. -/
def newModule (t : ℚ) (r : Fin 6) (p1 p2 : ℚ) : Module :=
  let ty := types.get ⟨r.val, by cases r with | mk v h => simpa [types] using h⟩
  { id := t
    label := capitalizeStr ty
    color := colorOf ty
    size := 2
    type := ty
    position := (p1 * 6 - 3, 0, p2 * 6 - 3) }

/-- `addModule` from `App.jsx`: appends the new record and selects its
id.  No error conditions. -/
def addModule (t : ℚ) (r : Fin 6) (p1 p2 : ℚ) (st : AppState) : AppState :=
  { st with
    modules := st.modules ++ [newModule t r p1 p2]
    selected := some (newModule t r p1 p2).id }

/-- The warning emitted by `deleteModule` with no (or a falsy) selection. -/
def deleteWarning : String := "Select a module to delete!"

/-- `deleteModule` from `App.jsx`.  `if (!selected) return alert(...)`
tests JavaScript falsiness: the guard also fires when the selected id is
the number `0`.  Otherwise filters out every record whose id equals the
selection and clears the selection. -/
def deleteModule (st : AppState) : AppState :=
  match st.selected with
  | none => { st with alerts := st.alerts ++ [deleteWarning] }
  | some i =>
    if i = 0 then { st with alerts := st.alerts ++ [deleteWarning] }
    else
      { st with
        modules := st.modules.filter (fun m => decide (m.id ≠ i))
        selected := none }

/-- A field update `(field, value)` as passed to `updateSelected` by its
call sites in the sidebar: the label and color text inputs, the numeric
size input, and the type select. -/
inductive FieldUpd where
  | label (s : String) : FieldUpd
  | color (s : String) : FieldUpd
  | size (q : ℚ) : FieldUpd
  | type (t : String) : FieldUpd
deriving DecidableEq, Repr

/-- `{ ...m, [field]: value }` at the call sites of `updateSelected`. -/
def setField : FieldUpd → Module → Module
  | .label s, m => { m with label := s }
  | .color s, m => { m with color := s }
  | .size q, m => { m with size := q }
  | .type t, m => { m with type := t }

/-- `updateSelected` from `App.jsx`.  `if (!selected) return;` is again
a falsiness test (silently no-ops when the selection is `null` or the
id `0`); otherwise maps over the registry replacing the named field of
every record whose id equals the selection. -/
def updateSelected (u : FieldUpd) (st : AppState) : AppState :=
  match st.selected with
  | none => st
  | some i =>
    if i = 0 then st
    else
      { st with
        modules := st.modules.map (fun m => if m.id = i then setField u m else m) }

/-- Encoding of one module record as the JSON value that
`JSON.stringify` serializes (fields in declaration order). -/
def encodeModule (m : Module) : JVal :=
  .obj [("id", .num m.id), ("label", .str m.label), ("color", .str m.color),
        ("size", .num m.size), ("type", .str m.type),
        ("position", .arr [.num m.position.1, .num m.position.2.1, .num m.position.2.2])]

/-- Encoding of the registry: a JSON array of module objects. -/
def encodeModules (ms : List Module) : JVal :=
  .arr (ms.map encodeModule)

/-- Decoder for the expected document shape of one module record; the
partial inverse of `encodeModule`. -/
def decodeModule : JVal → Option Module
  | .obj [("id", .num i), ("label", .str l), ("color", .str c),
          ("size", .num s), ("type", .str t),
          ("position", .arr [.num x, .num y, .num z])] =>
    some { id := i, label := l, color := c, size := s, type := t, position := (x, y, z) }
  | _ => none

/-- Decoder for a list of module records, element by element. -/
def decodeModuleList : List JVal → Option (List Module)
  | [] => some []
  | v :: vs =>
    match decodeModule v, decodeModuleList vs with
    | some m, some ms => some (m :: ms)
    | _, _ => none

/-- Decoder for the expected document shape of the registry: an array of
module records.  Used to state what "decodes into the expected document
shape" means; `importLayout` itself performs no such check. -/
def decodeModules : JVal → Option (List Module)
  | .arr vs => decodeModuleList vs
  | _ => none

/-- The alert emitted by `saveLayout`. -/
def savedAlert : String := "✅ Layout saved!"

/-- `saveLayout` from `App.jsx`:
`localStorage.setItem("astrohab_layout", JSON.stringify(modules))`
followed by an alert.  The slot holds the decoded form of the stored
text, i.e. the `encodeModules` image of the registry. -/
def saveLayout (st : AppState) : AppState :=
  { st with storage := some (encodeModules st.modules), alerts := st.alerts ++ [savedAlert] }

/-- The alert emitted by `loadLayout` when the slot is present. -/
def loadedAlert : String := "📂 Layout loaded!"

/-- `loadLayout` from `App.jsx`: reads the slot; if present, parses it
and replaces the registry wholesale (`setModules(JSON.parse(data))`),
leaving the selection untouched; if absent, no-ops.  Within this typed
layer the slot is only ever written by `saveLayout`, whose content
always decodes; the decoder expresses the verbatim hand-off of the
parsed value back into the registry. -/
def loadLayout (st : AppState) : AppState :=
  match st.storage with
  | none => st
  | some v =>
    match decodeModules v with
    | some ms => { st with modules := ms, alerts := st.alerts ++ [loadedAlert] }
    | none => st

/-- The alert emitted by `importLayout` on successful parse. -/
def importedAlert : String := "✅ Layout imported!"

/-- The alert emitted by `importLayout` when `JSON.parse` throws. -/
def invalidAlert : String := "❌ Invalid JSON file!"

/-- `importLayout` from `App.jsx`, within the typed layer: `parsed` is
the outcome of `JSON.parse` on the file's text (`none` when the parser
throws).  On success the parsed value becomes the registry verbatim;
the decoder mediates the typed layer exactly as in `loadLayout`.  The
selection is never touched.  (The full untyped behavior, where a parsed
value of any shape is accepted, is modelled by `importLayoutJ` below.) -/
def importLayout (parsed : Option JVal) (st : AppState) : AppState :=
  match parsed with
  | none => { st with alerts := st.alerts ++ [invalidAlert] }
  | some v =>
    match decodeModules v with
    | some ms => { st with modules := ms, alerts := st.alerts ++ [importedAlert] }
    | none => st

/-- `setSelected(m.id)` fired by a click on a rendered module (only
modules in the registry are rendered). -/
def clickSelect (i : ℚ) (st : AppState) : AppState :=
  { st with selected := some i }

/-- The states reachable from the initial state through the UI
operations. -/
inductive Reachable : AppState → Prop where
  | init : Reachable initState
  | add (t : ℚ) (r : Fin 6) (p1 p2 : ℚ) {st : AppState} :
      Reachable st → Reachable (addModule t r p1 p2 st)
  | del {st : AppState} : Reachable st → Reachable (deleteModule st)
  | upd (u : FieldUpd) {st : AppState} :
      Reachable st → Reachable (updateSelected u st)
  | save {st : AppState} : Reachable st → Reachable (saveLayout st)
  | load {st : AppState} : Reachable st → Reachable (loadLayout st)
  | imp (parsed : Option JVal) {st : AppState} :
      Reachable st → Reachable (importLayout parsed st)
  | click (m : Module) {st : AppState} :
      Reachable st → m ∈ st.modules → Reachable (clickSelect m.id st)

/-- The selection invariant of the specification: the selection is
either empty or references an id present in the registry. -/
def SelInv (st : AppState) : Prop :=
  ∀ i, st.selected = some i → ∃ m ∈ st.modules, m.id = i

/-- The raw state of `importLayout`'s `onload` callback, before any
typing assumption on the registry: `setModules` accepts whatever value
`JSON.parse` produced, so the registry is an arbitrary JSON value. -/
structure JsState where
  registry : JVal
  alerts : List String

/-- `importLayout` from `App.jsx`, untyped: `parsed` is the outcome of
`JSON.parse(event.target.result)` (`none` when the parser throws).  On
success the parsed value — whatever its shape — becomes the registry
verbatim via `setModules(data)`; on failure an error alert is shown and
nothing changes. -/
def importLayoutJ (parsed : Option JVal) (st : JsState) : JsState :=
  match parsed with
  | some v => { registry := v, alerts := st.alerts ++ [importedAlert] }
  | none => { st with alerts := st.alerts ++ [invalidAlert] }

/-- An untyped state with an empty registry array. -/
def emptyJsState : JsState :=
  { registry := .arr [], alerts := [] }

/-- Two-decimal fixed formatting, modelling `Number.prototype.toFixed(2)`
on the exact value: rounds to the nearest hundredth (halves up) and
prints with exactly two digits after the decimal point. -/
def toFixed2 (q : ℚ) : String :=
  let n : ℤ := ⌊q * 100 + 1 / 2⌋
  let sign := if n < 0 then "-" else ""
  let a := n.natAbs
  let frac := a % 100
  let fracStr := (if frac < 10 then "0" else "") ++ toString frac
  sign ++ toString (a / 100) ++ "." ++ fracStr

/-- `const dailyOxygen = (crew * 0.84).toFixed(2)` from `App.jsx`. -/
def dailyOxygen (crew : ℚ) : String := toFixed2 (crew * (84 / 100))

/-- `const dailyWater = (crew * 2.5).toFixed(2)` from `App.jsx`. -/
def dailyWater (crew : ℚ) : String := toFixed2 (crew * (5 / 2))

/-- `const dailyFood = (crew * 0.62).toFixed(2)` from `App.jsx`. -/
def dailyFood (crew : ℚ) : String := toFixed2 (crew * (62 / 100))

/-- A sequence of add operations: each element carries the environment
inputs of one `addModule` call (`Date.now()` value, type index, two
position draws), applied left to right. -/
def runAdds (inputs : List (ℚ × Fin 6 × ℚ × ℚ)) (st : AppState) : AppState :=
  inputs.foldl (fun s a => addModule a.1 a.2.1 a.2.2.1 a.2.2.2 s) st

/-- The spec's frame condition for one field update, following its
words: the named field of the record is replaced with the new value and
every other field is unchanged.  Compared against `setField`, which is
translated from the source. -/
def FrameOk : FieldUpd → Module → Module → Prop
  | .label s, m, m2 => m2.label = s ∧ m2.id = m.id ∧ m2.color = m.color ∧
      m2.size = m.size ∧ m2.type = m.type ∧ m2.position = m.position
  | .color s, m, m2 => m2.color = s ∧ m2.id = m.id ∧ m2.label = m.label ∧
      m2.size = m.size ∧ m2.type = m.type ∧ m2.position = m.position
  | .size q, m, m2 => m2.size = q ∧ m2.id = m.id ∧ m2.label = m.label ∧
      m2.color = m.color ∧ m2.type = m.type ∧ m2.position = m.position
  | .type t, m, m2 => m2.type = t ∧ m2.id = m.id ∧ m2.label = m.label ∧
      m2.color = m.color ∧ m2.size = m.size ∧ m2.position = m.position

/-- A registry reached by `loadLayout` on a slot that no longer contains
the currently selected id: add (id 1), save, delete, add (id 2), load.
After the load the selection still holds id 2 while the registry holds
only id 1. -/
def staleSelState : AppState :=
  loadLayout (addModule 2 0 0 0 (deleteModule (saveLayout (addModule 1 0 0 0 initState))))

/-- A registry holding two records with the same id 5 (reachable through
import, which performs no validation), with id 5 selected. -/
def dupIdState : AppState :=
  { modules :=
      [{ id := 5, label := "Cube", color := "#00aaff", size := 2, type := "cube",
         position := (0, 0, 0) },
       { id := 5, label := "Sphere", color := "#ffcc00", size := 2, type := "sphere",
         position := (1, 0, 1) }],
    selected := some 5, storage := none, alerts := [] }

/-- A registry holding exactly one record, with its id 5 selected. -/
def singleSelState : AppState :=
  { modules :=
      [{ id := 5, label := "Cube", color := "#00aaff", size := 2, type := "cube",
         position := (0, 0, 0) }],
    selected := some 5, storage := none, alerts := [] }

/-- A registry holding a record whose id is the number 0 (reachable only
through load or import), with that id selected; used for the falsy
selection checks of `deleteModule`. -/
def zeroIdState : AppState :=
  { modules :=
      [{ id := 0, label := "Cube", color := "#00aaff", size := 2, type := "cube",
         position := (0, 0, 0) }],
    selected := some 0, storage := none, alerts := [] }

/-- A second id-0 registry, used for the `updateSelected` falsy no-op. -/
def zeroIdUpdState : AppState :=
  { modules :=
      [{ id := 0, label := "Tunnel", color := "#aaaaaa", size := 2, type := "tunnel",
         position := (0, 0, 0) }],
    selected := some 0, storage := none, alerts := [] }

/-! ## Helper lemmas -/

theorem decodeModule_encodeModule (m : Module) :
    decodeModule (encodeModule m) = some m := rfl

theorem decodeModules_encodeModules (ms : List Module) :
    decodeModules (encodeModules ms) = some ms := by
  induction ms with
  | nil => rfl
  | cons a l ih =>
    have ih2 : decodeModuleList (l.map encodeModule) = some l := by
      simpa [decodeModules, encodeModules] using ih
    simp [decodeModules, encodeModules, decodeModuleList, decodeModule_encodeModule, ih2]

theorem setField_id (u : FieldUpd) (m : Module) : (setField u m).id = m.id := by
  cases u <;> rfl

theorem updateSelected_selected (u : FieldUpd) (st : AppState) :
    (updateSelected u st).selected = st.selected := by
  unfold updateSelected
  cases h : st.selected with
  | none => exact h
  | some i =>
    by_cases hi : i = 0
    · subst hi; simp [h]
    · simp [hi, h]

/-! ## C7: save/load round trip -/

/-- C7: for every registry, performing Save and then Load with no
intervening modification restores the registry to a value equal to the
one that was saved, preserving record order and every field of every
record (serialize-then-deserialize round trip through the storage
slot). -/
theorem save_then_load_restores (st : AppState) :
    (loadLayout (saveLayout st)).modules = st.modules ∧
    (loadLayout (saveLayout st)).selected = st.selected := by
  constructor <;> simp [saveLayout, loadLayout, decodeModules_encodeModules]

/-! ## C5: delete with empty selection -/

/-- C5: for every registry, the delete operation invoked with an empty
Selection emits the "select a module" warning exactly once and performs
no state change: the registry is unchanged and the Selection remains
empty. -/
theorem delete_no_selection (st : AppState) (h : st.selected = none) :
    (deleteModule st).modules = st.modules ∧
    (deleteModule st).selected = none ∧
    (deleteModule st).alerts = st.alerts ++ [deleteWarning] ∧
    (deleteModule st).storage = st.storage := by
  refine ⟨?_, ?_, ?_, ?_⟩ <;> simp [deleteModule, h]

/-- Witness for `delete_no_selection` at the initial state. -/
theorem delete_no_selection_witness :
    (deleteModule initState).modules = initState.modules ∧
    (deleteModule initState).selected = none ∧
    (deleteModule initState).alerts = initState.alerts ++ [deleteWarning] ∧
    (deleteModule initState).storage = initState.storage :=
  delete_no_selection initState rfl

/-! ## C10: falsy selection checks at id 0 -/

/-- C10: the no-selection checks of delete and update-field test the
selected id for JavaScript falsiness rather than for absence: for every
registry containing a record whose id is 0, selecting that record and
invoking delete surfaces the no-selection warning and performs no
mutation, and invoking update-field silently no-ops, even though a
module is selected. -/
theorem falsy_zero_selection (st : AppState) (h : st.selected = some 0)
    (_hm : ∃ m ∈ st.modules, m.id = 0) :
    (deleteModule st).alerts = st.alerts ++ [deleteWarning] ∧
    (deleteModule st).modules = st.modules ∧
    (deleteModule st).selected = st.selected ∧
    ∀ u : FieldUpd, updateSelected u st = st := by
  refine ⟨?_, ?_, ?_, fun u => ?_⟩ <;> simp [deleteModule, updateSelected, h]

/-- Witness for `falsy_zero_selection` at a one-record registry whose
record has id 0. -/
theorem falsy_zero_selection_witness :
    (deleteModule zeroIdState).alerts = zeroIdState.alerts ++ [deleteWarning] ∧
    (deleteModule zeroIdState).modules = zeroIdState.modules ∧
    (deleteModule zeroIdState).selected = zeroIdState.selected ∧
    ∀ u : FieldUpd, updateSelected u zeroIdState = zeroIdState :=
  falsy_zero_selection zeroIdState rfl
    ⟨{ id := 0, label := "Cube", color := "#00aaff", size := 2, type := "cube",
       position := (0, 0, 0) }, by simp [zeroIdState], rfl⟩

/-! ## C3: import accepts any decoded JSON value -/

/-- C3 (counterexample): a file whose content decodes to the JSON number
42 — which is not a sequence of module records — is accepted as the new
registry by import, contradicting the claim that such a file is not
accepted. -/
theorem import_accepts_nonmodule_json_cex :
    (importLayoutJ (some (JVal.num 42)) emptyJsState).registry = JVal.num 42 ∧
    decodeModules (JVal.num 42) = none ∧
    emptyJsState.registry ≠ JVal.num 42 ∧
    (importLayoutJ (some (JVal.num 42)) emptyJsState).alerts = [importedAlert] := by
  refine ⟨rfl, rfl, fun h => JVal.noConfusion h, rfl⟩

/-- C3 (amended): import replaces the registry wholesale iff the file's
text content parses as JSON, and the parsed value is used verbatim with
no shape validation; on parse failure it surfaces a user-visible error
and leaves the registry unchanged.  An encoded module registry is in
particular decodable, so well-shaped files round-trip. -/
theorem importLayoutJ_spec (st : JsState) (v : JVal) (ms : List Module) :
    (importLayoutJ (some v) st).registry = v ∧
    (importLayoutJ (some v) st).alerts = st.alerts ++ [importedAlert] ∧
    (importLayoutJ none st).registry = st.registry ∧
    (importLayoutJ none st).alerts = st.alerts ++ [invalidAlert] ∧
    decodeModules (encodeModules ms) = some ms :=
  ⟨rfl, rfl, rfl, rfl, decodeModules_encodeModules ms⟩

/-! ## C8: resource estimator -/

theorem toFixed2_eq_of_floor (q : ℚ) (n : ℤ) (h : ⌊q * 100 + 1 / 2⌋ = n) :
    toFixed2 q = (if n < 0 then "-" else "") ++ toString (n.natAbs / 100) ++ "." ++
      ((if n.natAbs % 100 < 10 then "0" else "") ++ toString (n.natAbs % 100)) := by
  simp only [toFixed2, h]

/-- C8: the Resource Estimator is a pure function of the crew count c
returning oxygen = c × 0.84, water = c × 2.5 and food = c × 0.62, each
formatted to exactly two decimal places; crew = 4 yields oxygen "3.36",
water "10.00", food "2.48", and crew = 0 yields "0.00" for all three. -/
theorem resource_estimator_values (c : ℚ) :
    dailyOxygen c = toFixed2 (c * (84 / 100)) ∧
    dailyWater c = toFixed2 (c * (5 / 2)) ∧
    dailyFood c = toFixed2 (c * (62 / 100)) ∧
    dailyOxygen 4 = "3.36" ∧ dailyWater 4 = "10.00" ∧ dailyFood 4 = "2.48" ∧
    dailyOxygen 0 = "0.00" ∧ dailyWater 0 = "0.00" ∧ dailyFood 0 = "0.00" := by
  refine ⟨rfl, rfl, rfl, ?_, ?_, ?_, ?_, ?_, ?_⟩
  · rw [dailyOxygen, toFixed2_eq_of_floor (4 * (84 / 100)) 336 (by norm_num)]; rfl
  · rw [dailyWater, toFixed2_eq_of_floor (4 * (5 / 2)) 1000 (by norm_num)]; rfl
  · rw [dailyFood, toFixed2_eq_of_floor (4 * (62 / 100)) 248 (by norm_num)]; rfl
  · rw [dailyOxygen, toFixed2_eq_of_floor (0 * (84 / 100)) 0 (by norm_num)]; rfl
  · rw [dailyWater, toFixed2_eq_of_floor (0 * (5 / 2)) 0 (by norm_num)]; rfl
  · rw [dailyFood, toFixed2_eq_of_floor (0 * (62 / 100)) 0 (by norm_num)]; rfl

/-! ## C9: add appends one defaulted record and selects it -/

/-- C9: for every registry, the add operation never fails and appends
exactly one new record at the end of the registry (existing records
unchanged and in order), with id equal to the minting clock value, a
type drawn from the fixed enumeration, the fixed default size 2, the
derived default color and capitalized label for that type, and a
position within the bounded square [-3, 3) × [-3, 3) at height 0, and
it sets the Selection to the new record's id. -/
theorem addModule_spec (st : AppState) (t p1 p2 : ℚ) (r : Fin 6)
    (h1 : 0 ≤ p1) (h2 : p1 < 1) (h3 : 0 ≤ p2) (h4 : p2 < 1) :
    ∃ nm : Module,
      (addModule t r p1 p2 st).modules = st.modules ++ [nm] ∧
      (addModule t r p1 p2 st).selected = some nm.id ∧
      nm.id = t ∧ nm.type ∈ types ∧ nm.size = 2 ∧
      nm.color = colorOf nm.type ∧ nm.label = capitalizeStr nm.type ∧
      types.map capitalizeStr = ["Cube", "Sphere", "Cylinder", "Cone", "Solar", "Tunnel"] ∧
      nm.position.2.1 = 0 ∧
      -3 ≤ nm.position.1 ∧ nm.position.1 < 3 ∧
      -3 ≤ nm.position.2.2 ∧ nm.position.2.2 < 3 ∧
      (addModule t r p1 p2 st).storage = st.storage ∧
      (addModule t r p1 p2 st).alerts = st.alerts := by
  refine ⟨_, rfl, rfl, rfl, ?_, rfl, rfl, rfl, by decide, rfl, ?_, ?_, ?_, ?_, rfl, rfl⟩
  · exact List.get_mem types _ _
  · show -3 ≤ p1 * 6 - 3
    linarith
  · show p1 * 6 - 3 < 3
    linarith
  · show -3 ≤ p2 * 6 - 3
    linarith
  · show p2 * 6 - 3 < 3
    linarith

/-- Witness for `addModule_spec` at the initial state with clock value 1
and both position draws 1/2. -/
theorem addModule_spec_witness :
    ∃ nm : Module,
      (addModule 1 0 (1 / 2) (1 / 2) initState).modules = initState.modules ++ [nm] ∧
      (addModule 1 0 (1 / 2) (1 / 2) initState).selected = some nm.id ∧
      nm.id = 1 ∧ nm.type ∈ types ∧ nm.size = 2 ∧
      nm.color = colorOf nm.type ∧ nm.label = capitalizeStr nm.type ∧
      types.map capitalizeStr = ["Cube", "Sphere", "Cylinder", "Cone", "Solar", "Tunnel"] ∧
      nm.position.2.1 = 0 ∧
      -3 ≤ nm.position.1 ∧ nm.position.1 < 3 ∧
      -3 ≤ nm.position.2.2 ∧ nm.position.2.2 < 3 ∧
      (addModule 1 0 (1 / 2) (1 / 2) initState).storage = initState.storage ∧
      (addModule 1 0 (1 / 2) (1 / 2) initState).alerts = initState.alerts :=
  addModule_spec initState 1 (1 / 2) (1 / 2) 0 (by norm_num) (by norm_num)
    (by norm_num) (by norm_num)

/-! ## C2: ids across a sequence of adds -/

theorem runAdds_cons (a : ℚ × Fin 6 × ℚ × ℚ) (l : List (ℚ × Fin 6 × ℚ × ℚ))
    (st : AppState) :
    runAdds (a :: l) st = runAdds l (addModule a.1 a.2.1 a.2.2.1 a.2.2.2 st) := rfl

theorem runAdds_map_id (inputs : List (ℚ × Fin 6 × ℚ × ℚ)) :
    ∀ st : AppState, (runAdds inputs st).modules.map Module.id =
      st.modules.map Module.id ++ inputs.map (fun a => a.1) := by
  induction inputs with
  | nil => intro st; simp [runAdds]
  | cons a l ih =>
    intro st
    rw [runAdds_cons, ih]
    simp [addModule, newModule]

theorem runAdds_types (inputs : List (ℚ × Fin 6 × ℚ × ℚ)) :
    ∀ st : AppState, ∀ m ∈ (runAdds inputs st).modules, m.type ∈ types ∨ m ∈ st.modules := by
  induction inputs with
  | nil => intro st m hm; exact Or.inr hm
  | cons a l ih =>
    intro st m hm
    rw [runAdds_cons] at hm
    rcases ih _ m hm with h | h
    · exact Or.inl h
    · simp [addModule] at h
      rcases h with h | h
      · exact Or.inr h
      · exact Or.inl (h ▸ List.get_mem types _ _)

/-- C2 (amended): for every sequence of add operations whose minting
clock values (`Date.now()` readings) are pairwise distinct, each
produced module record has an id distinct from the id of every other
record in the registry, and its type is a member of the fixed
six-element enumeration.  (The type membership needs no hypothesis;
the id distinctness fails without it, see the counterexample.) -/
theorem add_sequence_unique_ids (inputs : List (ℚ × Fin 6 × ℚ × ℚ))
    (h : (inputs.map (fun a => a.1)).Nodup) :
    ((runAdds inputs initState).modules.map Module.id).Nodup ∧
    ∀ m ∈ (runAdds inputs initState).modules, m.type ∈ types := by
  constructor
  · rw [runAdds_map_id]
    simpa [initState] using h
  · intro m hm
    rcases runAdds_types inputs initState m hm with h1 | h1
    · exact h1
    · simp [initState] at h1

/-- Witness for `add_sequence_unique_ids` on two adds with distinct
clock values 1 and 2. -/
theorem add_sequence_unique_ids_witness :
    ((runAdds [(1, 0, 0, 0), (2, 0, 0, 0)] initState).modules.map Module.id).Nodup ∧
    ∀ m ∈ (runAdds [(1, 0, 0, 0), (2, 0, 0, 0)] initState).modules, m.type ∈ types :=
  add_sequence_unique_ids [(1, 0, 0, 0), (2, 0, 0, 0)] (by decide)

/-- C2 (counterexample): two add operations during the same millisecond
read the same `Date.now()` value 1000 and mint the same id, so the
resulting registry's ids are not pairwise distinct, contradicting the
claim as stated. -/
theorem add_sequence_duplicate_id_cex :
    ¬ ((runAdds [(1000, 0, 0, 0), (1000, 1, 0, 0)] initState).modules.map Module.id).Nodup := by
  decide

/-! ## C4: delete with a valid selection -/

theorem filter_ne_split (pre post : List Module) (m : Module) (i : ℚ)
    (hm : m.id = i) (hpre : ∀ x ∈ pre, x.id ≠ i) (hpost : ∀ x ∈ post, x.id ≠ i) :
    (pre ++ m :: post).filter (fun x => decide (x.id ≠ i)) = pre ++ post := by
  have h1 : pre.filter (fun x => decide (x.id ≠ i)) = pre := by
    rw [List.filter_eq_self]
    intro a ha
    simpa using hpre a ha
  have h2 : post.filter (fun x => decide (x.id ≠ i)) = post := by
    rw [List.filter_eq_self]
    intro a ha
    simpa using hpost a ha
  rw [List.filter_append, List.filter_cons, h1, h2]
  simp [hm]

/-- C4 (amended): for every registry and every non-empty Selection whose
id is nonzero and occurs in exactly one record of the registry, delete
removes exactly that record, leaves every other record unchanged and in
order, decreases the registry length by exactly one, and clears the
Selection.  (The nonzero condition is forced by the falsy selection
check, see C10; the single-occurrence condition by the counterexample
below.) -/
theorem delete_selected_spec (st : AppState) (i : ℚ) (pre post : List Module) (m : Module)
    (hsel : st.selected = some i) (hi : i ≠ 0)
    (hsplit : st.modules = pre ++ m :: post) (hm : m.id = i)
    (hpre : ∀ x ∈ pre, x.id ≠ i) (hpost : ∀ x ∈ post, x.id ≠ i) :
    (deleteModule st).modules = pre ++ post ∧
    (deleteModule st).modules.length + 1 = st.modules.length ∧
    (deleteModule st).selected = none ∧
    (deleteModule st).storage = st.storage ∧
    (deleteModule st).alerts = st.alerts := by
  have hdel : deleteModule st =
      { st with modules := st.modules.filter (fun x => decide (x.id ≠ i)), selected := none } := by
    unfold deleteModule
    rw [hsel]
    simp [hi]
  have hf : st.modules.filter (fun x => decide (x.id ≠ i)) = pre ++ post := by
    rw [hsplit]
    exact filter_ne_split pre post m i hm hpre hpost
  rw [hdel]
  refine ⟨hf, ?_, rfl, rfl, rfl⟩
  show (st.modules.filter (fun x => decide (x.id ≠ i))).length + 1 = st.modules.length
  rw [hf, hsplit]
  simp only [List.length_append, List.length_cons]
  omega

/-- Witness for `delete_selected_spec` at a one-record registry whose
record (id 5) is selected. -/
theorem delete_selected_spec_witness :
    (deleteModule singleSelState).modules = [] ++ [] ∧
    (deleteModule singleSelState).modules.length + 1 = singleSelState.modules.length ∧
    (deleteModule singleSelState).selected = none ∧
    (deleteModule singleSelState).storage = singleSelState.storage ∧
    (deleteModule singleSelState).alerts = singleSelState.alerts :=
  delete_selected_spec singleSelState 5 [] []
    { id := 5, label := "Cube", color := "#00aaff", size := 2, type := "cube",
      position := (0, 0, 0) }
    rfl (by norm_num) rfl rfl (by simp) (by simp)

/-- C4 (counterexample): with two records sharing the selected id 5 —
a registry reachable through import, which performs no validation —
delete removes both matching records, so the registry length decreases
by two rather than exactly one, contradicting the claim as stated. -/
theorem delete_removes_two_cex :
    dupIdState.selected = some 5 ∧
    (∃ m ∈ dupIdState.modules, m.id = 5) ∧
    dupIdState.modules.length = 2 ∧
    (deleteModule dupIdState).modules.length = 0 := by
  refine ⟨rfl, ?_, rfl, ?_⟩ <;> decide

/-! ## C6: update field with a valid selection -/

theorem setField_frame (u : FieldUpd) (m : Module) : FrameOk u m (setField u m) := by
  cases u <;> simp [setField, FrameOk]

theorem map_update_of_ne (i : ℚ) (f : Module → Module) :
    ∀ l : List Module, (∀ x ∈ l, x.id ≠ i) →
      l.map (fun x => if x.id = i then f x else x) = l := by
  intro l
  induction l with
  | nil => intro _; rfl
  | cons a l2 ih =>
    intro hl
    rw [List.map_cons, if_neg (hl a (by simp)), ih (fun x hx => hl x (by simp [hx]))]

theorem map_update_split (pre post : List Module) (m : Module) (i : ℚ) (f : Module → Module)
    (hm : m.id = i) (hpre : ∀ x ∈ pre, x.id ≠ i) (hpost : ∀ x ∈ post, x.id ≠ i) :
    (pre ++ m :: post).map (fun x => if x.id = i then f x else x) = pre ++ f m :: post := by
  rw [List.map_append, List.map_cons, if_pos hm,
    map_update_of_ne i f pre hpre, map_update_of_ne i f post hpost]

/-- C6 (amended): for every registry with a non-empty Selection whose id
is nonzero and occurs in exactly one record of the registry, updating a
named field replaces only that field of the selected record with the
new value; all other fields of the selected record, all other records,
the registry's record count, and the registry's order are unchanged.
(The nonzero condition is forced by the falsy selection check, see the
counterexample and C10; the single-occurrence condition by import's
unvalidated registries, as in C4.) -/
theorem update_selected_spec (st : AppState) (i : ℚ) (u : FieldUpd)
    (pre post : List Module) (m : Module)
    (hsel : st.selected = some i) (hi : i ≠ 0)
    (hsplit : st.modules = pre ++ m :: post) (hm : m.id = i)
    (hpre : ∀ x ∈ pre, x.id ≠ i) (hpost : ∀ x ∈ post, x.id ≠ i) :
    (updateSelected u st).modules = pre ++ setField u m :: post ∧
    FrameOk u m (setField u m) ∧
    (updateSelected u st).modules.length = st.modules.length ∧
    (updateSelected u st).selected = st.selected ∧
    (updateSelected u st).storage = st.storage ∧
    (updateSelected u st).alerts = st.alerts := by
  have hupd : updateSelected u st =
      { st with modules := st.modules.map (fun x => if x.id = i then setField u x else x) } := by
    unfold updateSelected
    rw [hsel]
    simp [hi]
  have hmap : st.modules.map (fun x => if x.id = i then setField u x else x)
      = pre ++ setField u m :: post := by
    rw [hsplit]
    exact map_update_split pre post m i (setField u) hm hpre hpost
  rw [hupd]
  refine ⟨hmap, setField_frame u m, ?_, rfl, rfl, rfl⟩
  show (st.modules.map (fun x => if x.id = i then setField u x else x)).length
      = st.modules.length
  rw [List.length_map]

/-- Witness for `update_selected_spec`: relabelling the single selected
record (id 5). -/
theorem update_selected_spec_witness :
    (updateSelected (.label "Lab") singleSelState).modules =
      [] ++ setField (.label "Lab")
        { id := 5, label := "Cube", color := "#00aaff", size := 2, type := "cube",
          position := (0, 0, 0) } :: [] ∧
    FrameOk (.label "Lab")
      { id := 5, label := "Cube", color := "#00aaff", size := 2, type := "cube",
        position := (0, 0, 0) }
      (setField (.label "Lab")
        { id := 5, label := "Cube", color := "#00aaff", size := 2, type := "cube",
          position := (0, 0, 0) }) ∧
    (updateSelected (.label "Lab") singleSelState).modules.length =
      singleSelState.modules.length ∧
    (updateSelected (.label "Lab") singleSelState).selected = singleSelState.selected ∧
    (updateSelected (.label "Lab") singleSelState).storage = singleSelState.storage ∧
    (updateSelected (.label "Lab") singleSelState).alerts = singleSelState.alerts :=
  update_selected_spec singleSelState 5 (.label "Lab") [] []
    { id := 5, label := "Cube", color := "#00aaff", size := 2, type := "cube",
      position := (0, 0, 0) }
    rfl (by norm_num) rfl rfl (by simp) (by simp)

/-- C6 (counterexample): a registry holding one record with id 0 and
that record selected — the selection references a present id — yet
update-field no-ops: the named field is not replaced, contradicting the
claim as stated. -/
theorem update_zero_id_noop_cex :
    zeroIdUpdState.selected = some 0 ∧
    (∃ m ∈ zeroIdUpdState.modules, m.id = 0) ∧
    updateSelected (.label "X") zeroIdUpdState = zeroIdUpdState ∧
    ∀ m ∈ (updateSelected (.label "X") zeroIdUpdState).modules, m.label ≠ "X" := by
  refine ⟨rfl, ?_, rfl, ?_⟩ <;> decide

/-! ## C1: the selection invariant -/

theorem map_id_of_preserve (f : Module → Module) (hf : ∀ x, (f x).id = x.id) :
    ∀ l : List Module, (l.map f).map Module.id = l.map Module.id := by
  intro l
  induction l with
  | nil => rfl
  | cons a l2 ih => simp [hf, ih]

theorem updateSelected_modules_map_id (u : FieldUpd) (st : AppState) :
    (updateSelected u st).modules.map Module.id = st.modules.map Module.id := by
  unfold updateSelected
  cases h : st.selected with
  | none => rfl
  | some j =>
    by_cases hj : j = 0
    · simp [hj]
    · have hf : ∀ x : Module, ((fun x => if x.id = j then setField u x else x) x).id = x.id := by
        intro x
        by_cases hx : x.id = j <;> simp [hx, setField_id]
      simpa [hj] using map_id_of_preserve _ hf st.modules

/-- C1 (amended): the Selection invariant — a non-empty selection
references an id present in the registry — is preserved by add, delete,
update field, save, and click-to-select; but load and import replace
the registry wholesale without clearing or revalidating the Selection,
so after them a non-empty selection may reference an absent id (see the
counterexample). -/
theorem selection_invariant_basic_ops (st : AppState) (t p1 p2 : ℚ) (r : Fin 6)
    (u : FieldUpd) (h : SelInv st) :
    SelInv (addModule t r p1 p2 st) ∧
    SelInv (deleteModule st) ∧
    SelInv (updateSelected u st) ∧
    SelInv (saveLayout st) ∧
    ∀ m ∈ st.modules, SelInv (clickSelect m.id st) := by
  refine ⟨?_, ?_, ?_, ?_, ?_⟩
  · intro i hi
    refine ⟨newModule t r p1 p2, ?_, ?_⟩
    · simp [addModule]
    · exact Option.some.inj hi
  · intro i hi
    cases hsel : st.selected with
    | none =>
      have hd : deleteModule st = { st with alerts := st.alerts ++ [deleteWarning] } := by
        unfold deleteModule
        rw [hsel]
      rw [hd] at hi
      have hi2 : st.selected = some i := hi
      rw [hsel] at hi2
      exact Option.noConfusion hi2
    | some j =>
      by_cases hj : j = 0
      · have hd : deleteModule st = { st with alerts := st.alerts ++ [deleteWarning] } := by
          unfold deleteModule
          rw [hsel]
          simp [hj]
        rw [hd] at hi ⊢
        exact h i hi
      · have hd : deleteModule st =
            { st with
              modules := st.modules.filter (fun x => decide (x.id ≠ j))
              selected := none } := by
          unfold deleteModule
          rw [hsel]
          simp [hj]
        rw [hd] at hi
        have hi2 : (none : Option ℚ) = some i := hi
        exact Option.noConfusion hi2
  · intro i hi
    rw [updateSelected_selected] at hi
    obtain ⟨m, hm, hid⟩ := h i hi
    have hmem : i ∈ (updateSelected u st).modules.map Module.id := by
      rw [updateSelected_modules_map_id]
      exact List.mem_map.mpr ⟨m, hm, hid⟩
    obtain ⟨m2, hm2, hid2⟩ := List.mem_map.mp hmem
    exact ⟨m2, hm2, hid2⟩
  · intro i hi
    exact h i hi
  · intro m hm i hi
    exact ⟨m, hm, Option.some.inj hi⟩

/-- Witness for `selection_invariant_basic_ops` at the initial state
(whose empty selection satisfies the invariant vacuously). -/
theorem selection_invariant_basic_ops_witness :
    SelInv (addModule 1 0 0 0 initState) ∧
    SelInv (deleteModule initState) ∧
    SelInv (updateSelected (.label "x") initState) ∧
    SelInv (saveLayout initState) ∧
    ∀ m ∈ initState.modules, SelInv (clickSelect m.id initState) :=
  selection_invariant_basic_ops initState 1 0 0 0 (.label "x")
    (fun _ hi => Option.noConfusion hi)

/-- C1 (counterexample): a reachable state — add (id 1), save, delete,
add (id 2), load — in which the selection still holds id 2 after the
load while the registry holds only the reloaded record with id 1, so
the selection references an id absent from the registry right after a
wholesale replacement, contradicting the claim as stated. -/
theorem selection_stale_after_load_cex :
    Reachable staleSelState ∧
    staleSelState.selected = some 2 ∧
    ∀ m ∈ staleSelState.modules, m.id ≠ 2 := by
  refine ⟨?_, rfl, ?_⟩
  · exact Reachable.load (Reachable.add 2 0 0 0 (Reachable.del (Reachable.save
      (Reachable.add 1 0 0 0 Reachable.init))))
  · decide

end Astrohab
